import Mathlib

/-!
Verification of the plotnine layer pipeline (plotnine/layer.py and
plotnine/stats/stat_count.py) against its natural-language specification.

The data model is a shallow embedding: a pandas `DataFrame` becomes `Table`
(an ordered list of named columns of `CellVal` cells plus a row count),
python dicts become association lists, and fallible code returns `Except`.
Helpers of the library that live outside the excerpt (`ninteraction`,
`resolution`, `aes.inherit`, `NO_GROUP`, `SCALED_AESTHETICS`,
`check_required_aesthetics`) are modelled from the specification's words and
are marked as such in their doc comments.
-/

namespace Plotnine

/-- A value stored in one cell of a dataframe.  `compound` stands for a
structural (unhashable) python value such as a list; only its hashability
matters to the grouping code, so it is kept opaque. -/
inductive CellVal where
  | int (n : Int)
  | q (v : ℚ)
  | str (s : String)
  | boolV (b : Bool)
  | compound (tag : Nat)
  deriving DecidableEq

/-- `hash(v)` succeeds for every python value except structural/compound
ones, which raise `TypeError`. -/
def hashable : CellVal → Bool
  | .compound _ => false
  | _ => true

/-- One dataframe column: a name, the cell values in row order, and the
dtype's discreteness (`array_kind.discrete` inspects the numpy dtype, which
is data of the column, so it is embedded as a field). -/
structure Column where
  name : String
  values : List CellVal
  discrete : Bool
  deriving DecidableEq

/-- A dataframe: a row count and an ordered list of columns. -/
structure Table where
  nrows : Nat
  cols : List Column
  deriving DecidableEq

/-- Well-formedness of a dataframe: every column has exactly `nrows` cells
and column names are unique. -/
def Table.WF (t : Table) : Prop :=
  (∀ c ∈ t.cols, c.values.length = t.nrows) ∧ (t.cols.map Column.name).Nodup

instance (t : Table) : Decidable t.WF := by
  unfold Table.WF; infer_instance

def Table.colNames (t : Table) : List String := t.cols.map Column.name

def Table.getCol (t : Table) (s : String) : Option Column :=
  t.cols.find? (fun c => c.name == s)

def Table.hasCol (t : Table) (s : String) : Bool := (t.getCol s).isSome

/-- `df[name] = vals`: replace the values of an existing column in place, or
append a new column at the end. -/
def Table.setCol (t : Table) (s : String) (vals : List CellVal) (disc : Bool) :
    Table :=
  if t.hasCol s then
    { t with cols := t.cols.map (fun c =>
        if c.name == s then { c with values := vals, discrete := disc } else c) }
  else
    { t with cols := t.cols ++ [⟨s, vals, disc⟩] }

/-- The values of the `group` column (empty list when absent). -/
def Table.groupVals (t : Table) : List CellVal :=
  ((t.getCol "group").map Column.values).getD []

/-- The group id of row `i`. -/
def Table.groupOfRow (t : Table) (i : Nat) : Option CellVal :=
  (t.getCol "group").bind (fun c => c.values[i]?)

/-- Modelled from the spec: the names of the aesthetics that receive scales
(`SCALED_AESTHETICS` in plotnine/mapping/aes.py, outside the excerpt);
columns reserved for scaled numeric bounds (xmin, ymax, ...) are not among
them. -/
def SCALED_AESTHETICS : List String :=
  ["x", "y", "alpha", "color", "colour", "fill", "linetype", "shape",
   "size", "stroke"]

/-- Modelled from the spec: the sentinel "no group" value assigned when no
discrete aesthetic exists (`NO_GROUP` in plotnine/mapping/aes.py, outside
the excerpt). -/
def NO_GROUP : CellVal := .int (-1)

/-- `discrete_columns(df, ignore)` from layer.py: the names of the columns
whose dtype is discrete, that are not in the ignore set, and whose first
value is hashable.  (The first-value probe mirrors `hash(df[col].iloc[0])`;
a column with no rows is never probed because the caller returns early on
empty tables, so the `none` branch is unreachable under `Table.WF` with
`nrows > 0`.) -/
def discrete_columns (t : Table) (ignore : List String) : List String :=
  t.cols.filterMap (fun c =>
    if c.discrete && !(ignore.contains c.name) then
      match c.values.head? with
      | some v => if hashable v then some c.name else none
      | none => none
    else none)

/-- The ignore set passed to `discrete_columns` by `add_group`:
`data.columns.difference(list(SCALED_AESTHETICS))`, i.e. every column name
that is not a scaled aesthetic. -/
def groupIgnore (t : Table) : List String :=
  t.colNames.filter (fun s => !(SCALED_AESTHETICS.contains s))

/-- Modelled from the spec: `ninteraction(df, drop=True)` (plotnine/utils.py,
outside the excerpt).  Per the spec the interaction-to-integer encoding
produces the same code for identical tuples, distinct codes for distinct
tuples, and drops unused codes so codes are dense `0..k-1`.  Both call sites
in `add_group` pass `drop=True`.  The code of a row is the position of its
value in the deduplicated value list. -/
def denseCode {α : Type} [DecidableEq α] (l : List α) (v : α) : Nat :=
  l.dedup.indexOf v

/-- Modelled from the spec: dense interaction codes for a whole value list,
row-aligned (row `i` of the output is the code of row `i` of the input). -/
def ninteraction {α : Type} [DecidableEq α] (l : List α) : List Nat :=
  l.map (denseCode l)

/-- The tuple of values of the columns `names` at row `i`, used for the
multi-column interaction `ninteraction(data[disc], drop=True)`. -/
def Table.rowTuple (t : Table) (names : List String) (i : Nat) : List CellVal :=
  names.filterMap (fun s => (t.getCol s).bind (fun c => c.values[i]?))

def Table.rowTuples (t : Table) (names : List String) : List (List CellVal) :=
  (List.range t.nrows).map (t.rowTuple names)

/-- An integer group code as a dataframe cell. -/
def codeCell (n : Nat) : CellVal := .int (Int.ofNat n)

/-- `add_group(data)` from layer.py: an empty table is returned unchanged;
if no explicit `group` column exists, the interaction of the discrete
candidate columns (or the sentinel `NO_GROUP` when there are none) becomes
the group; an existing `group` column is re-coded densely by itself. -/
def add_group (data : Table) : Table :=
  if data.nrows = 0 then data
  else if data.hasCol "group" then
    data.setCol "group" ((ninteraction data.groupVals).map codeCell) false
  else
    let disc := discrete_columns data (groupIgnore data)
    if disc.isEmpty then
      data.setCol "group" (List.replicate data.nrows NO_GROUP) false
    else
      data.setCol "group"
        ((ninteraction (data.rowTuples disc)).map codeCell) false

/-! ### Generic lemmas about the dense interaction coding -/

@[simp] theorem ninteraction_length {α : Type} [DecidableEq α] (l : List α) :
    (ninteraction l).length = l.length := by
  simp [ninteraction]

theorem denseCode_eq_iff {α : Type} [DecidableEq α] (l : List α) {a b : α}
    (ha : a ∈ l) (hb : b ∈ l) :
    (denseCode l a = denseCode l b ↔ a = b) := by
  unfold denseCode
  exact List.indexOf_inj (List.mem_dedup.2 ha) (List.mem_dedup.2 hb)

theorem ninteraction_toFinset {α : Type} [DecidableEq α] (l : List α) :
    (ninteraction l).toFinset = Finset.range l.dedup.length := by
  ext c
  simp only [List.mem_toFinset, Finset.mem_range, ninteraction, List.mem_map]
  constructor
  · rintro ⟨a, ha, rfl⟩
    exact List.indexOf_lt_length.2 (List.mem_dedup.2 ha)
  · intro hc
    refine ⟨l.dedup[c], List.mem_dedup.1 (List.getElem_mem hc), ?_⟩
    unfold denseCode
    have h1 : l.dedup.indexOf l.dedup[c] < l.dedup.length :=
      List.indexOf_lt_length.2 (List.getElem_mem hc)
    have h2 := List.getElem_indexOf h1
    exact (List.Nodup.getElem_inj_iff (List.nodup_dedup l)).1 h2

theorem ninteraction_card {α : Type} [DecidableEq α] (l : List α) :
    (ninteraction l).toFinset.card = l.toFinset.card := by
  rw [ninteraction_toFinset, Finset.card_range, List.card_toFinset]

theorem ninteraction_getD {α : Type} [DecidableEq α] [Inhabited α] (l : List α)
    (i : Nat) (hi : i < l.length) :
    (ninteraction l).getD i 0 = denseCode l (l.getD i default) := by
  simp only [ninteraction, List.getD_eq_getElem?_getD, List.getElem?_map,
    List.getElem?_eq_getElem hi]
  rfl

instance : Inhabited CellVal := ⟨.int 0⟩

/-! ### Lemmas about table column update -/

def dummyCol : Column := ⟨"", [], false⟩

theorem find?_map_replace (s : String) (vals : List CellVal) (d : Bool) :
    ∀ (cs : List Column), (cs.find? (fun c => c.name == s)).isSome →
      ((cs.map (fun c =>
          if c.name == s then { c with values := vals, discrete := d } else c)).find?
        (fun c => c.name == s)) = some ⟨s, vals, d⟩
  | [], h => by simp at h
  | c :: cs, h => by
    by_cases hc : c.name = s
    · subst hc
      simp
    · have h' : (cs.find? (fun c => c.name == s)).isSome := by
        rw [List.find?_cons_of_neg _ (by simp [hc])] at h
        exact h
      rw [List.map_cons, if_neg (by simp [hc]),
        List.find?_cons_of_neg _ (by simp [hc])]
      exact find?_map_replace s vals d cs h'

@[simp] theorem setCol_nrows (t : Table) (s : String) (vals : List CellVal)
    (d : Bool) : (t.setCol s vals d).nrows = t.nrows := by
  unfold Table.setCol
  split <;> rfl

theorem getCol_setCol_self (t : Table) (s : String) (vals : List CellVal) (d : Bool) :
    (t.setCol s vals d).getCol s = some ⟨s, vals, d⟩ := by
  unfold Table.setCol
  by_cases h : t.hasCol s
  · simp only [h, if_true]
    exact find?_map_replace s vals d t.cols h
  · simp only [h, Bool.false_eq_true, if_false, Table.getCol, List.find?_append]
    have hn : t.cols.find? (fun c => c.name == s) = none := by
      unfold Table.hasCol Table.getCol at h
      exact Option.not_isSome_iff_eq_none.1 h
    simp [hn]

/-! ### C1: dense re-coding of an explicit group column -/

/-- C1: for every well-formed table that already has an explicit `group`
column, `add_group` re-codes that column alone: rows are not reordered and
every other column is untouched (so the row order within each code's
partition is the original row order), the codes are positionally aligned
with the original values, equal original values receive equal codes and
distinct ones distinct codes, the set of codes is the dense range
`0..k-1`, and the number of distinct codes equals the number of distinct
original group values. -/
theorem C1_add_group_recodes_explicit_group (data : Table) (hwf : data.WF)
    (hg : data.hasCol "group" = true) :
    ((add_group data).nrows = data.nrows
      ∧ (add_group data).cols.length = data.cols.length)
    ∧ (∀ i, i < data.cols.length →
        ((add_group data).cols.getD i dummyCol).name
            = (data.cols.getD i dummyCol).name
        ∧ ((data.cols.getD i dummyCol).name ≠ "group" →
            (add_group data).cols.getD i dummyCol = data.cols.getD i dummyCol)
        ∧ ((data.cols.getD i dummyCol).name = "group" →
            ((add_group data).cols.getD i dummyCol).values
              = (ninteraction data.groupVals).map codeCell))
    ∧ (∀ i j, i < data.groupVals.length → j < data.groupVals.length →
        ((ninteraction data.groupVals).getD i 0
            = (ninteraction data.groupVals).getD j 0
          ↔ data.groupVals.getD i default = data.groupVals.getD j default))
    ∧ (ninteraction data.groupVals).toFinset
        = Finset.range data.groupVals.dedup.length
    ∧ (ninteraction data.groupVals).toFinset.card
        = data.groupVals.toFinset.card := by
  have hiff : ∀ i j, i < data.groupVals.length → j < data.groupVals.length →
      ((ninteraction data.groupVals).getD i 0
          = (ninteraction data.groupVals).getD j 0
        ↔ data.groupVals.getD i default = data.groupVals.getD j default) := by
    intro i j hi hj
    rw [ninteraction_getD _ _ hi, ninteraction_getD _ _ hj]
    have hmi : data.groupVals.getD i default ∈ data.groupVals := by
      rw [List.getD_eq_getElem?_getD, List.getElem?_eq_getElem hi]
      exact List.getElem_mem hi
    have hmj : data.groupVals.getD j default ∈ data.groupVals := by
      rw [List.getD_eq_getElem?_getD, List.getElem?_eq_getElem hj]
      exact List.getElem_mem hj
    exact denseCode_eq_iff _ hmi hmj
  -- the explicit `group` column, with the length it has under WF
  obtain ⟨cg, hcg⟩ : ∃ cg, data.getCol "group" = some cg := by
    have h := hg
    unfold Table.hasCol at h
    exact Option.isSome_iff_exists.1 h
  have hcg_mem : cg ∈ data.cols := List.mem_of_find?_eq_some hcg
  have hcg_len : cg.values.length = data.nrows := hwf.1 cg hcg_mem
  have hvals : data.groupVals = cg.values := by
    unfold Table.groupVals
    rw [hcg]
    rfl
  by_cases hz : data.nrows = 0
  · -- empty table: returned unchanged, all statements degenerate
    have hvnil : data.groupVals = [] := by
      rw [hvals]
      exact List.length_eq_zero.1 (by rw [hcg_len, hz])
    have hres : add_group data = data := by
      unfold add_group
      simp [hz]
    refine ⟨⟨by rw [hres], by rw [hres]⟩, ?_, hiff, ninteraction_toFinset _,
      ninteraction_card _⟩
    intro i hi
    refine ⟨by rw [hres], fun _ => by rw [hres], fun hname => ?_⟩
    have hmem : data.cols.getD i dummyCol ∈ data.cols := by
      rw [List.getD_eq_getElem?_getD, List.getElem?_eq_getElem hi]
      exact List.getElem_mem hi
    have hlen := hwf.1 _ hmem
    rw [hz] at hlen
    have hnil : (data.cols.getD i dummyCol).values = [] := List.length_eq_zero.1 hlen
    rw [hres, hnil, hvnil]
    simp [ninteraction]
  · -- nonempty table with an explicit group column: the re-coding branch
    have hres : add_group data =
        data.setCol "group" ((ninteraction data.groupVals).map codeCell) false := by
      unfold add_group
      simp [hz, hg]
    have hcols : (add_group data).cols = data.cols.map (fun c =>
        if c.name == "group" then
          { c with values := (ninteraction data.groupVals).map codeCell,
                   discrete := false }
        else c) := by
      rw [hres]
      unfold Table.setCol
      simp [hg]
    refine ⟨⟨by rw [hres]; exact setCol_nrows data "group" _ false,
      by rw [hcols]; simp⟩, ?_, hiff, ninteraction_toFinset _, ninteraction_card _⟩
    intro i hi
    obtain ⟨c0, hc0⟩ : ∃ c0, data.cols.getD i dummyCol = c0 := ⟨_, rfl⟩
    have hgetD : (add_group data).cols.getD i dummyCol =
        if c0.name == "group" then
          { c0 with values := (ninteraction data.groupVals).map codeCell,
                    discrete := false }
        else c0 := by
      rw [hcols, List.getD_eq_getElem?_getD, List.getElem?_map,
        List.getElem?_eq_getElem hi]
      have hci : data.cols[i] = c0 := by
        rw [← hc0, List.getD_eq_getElem?_getD, List.getElem?_eq_getElem hi]
        rfl
      rw [hci]
      rfl
    rw [hgetD, hc0]
    by_cases hname : c0.name = "group"
    · refine ⟨by simp [hname], fun h => absurd hname h, fun _ => by simp [hname]⟩
    · refine ⟨by simp [hname], fun _ => by simp [hname], fun h => absurd h hname⟩

/-- Witness table for C1: an explicit `group` column with values
`["b", "a", "b"]`. -/
def c1table : Table :=
  ⟨3, [⟨"group", [.str "b", .str "a", .str "b"], true⟩,
       ⟨"x", [.int 10, .int 20, .int 30], false⟩]⟩

/-- C1 witness: the theorem applied to `c1table`, whose hypotheses hold by
computation. -/
theorem C1_witness :
    (c1table.WF ∧ c1table.hasCol "group" = true)
    ∧ (((add_group c1table).nrows = c1table.nrows
      ∧ (add_group c1table).cols.length = c1table.cols.length)
    ∧ (∀ i, i < c1table.cols.length →
        ((add_group c1table).cols.getD i dummyCol).name
            = (c1table.cols.getD i dummyCol).name
        ∧ ((c1table.cols.getD i dummyCol).name ≠ "group" →
            (add_group c1table).cols.getD i dummyCol = c1table.cols.getD i dummyCol)
        ∧ ((c1table.cols.getD i dummyCol).name = "group" →
            ((add_group c1table).cols.getD i dummyCol).values
              = (ninteraction c1table.groupVals).map codeCell))
    ∧ (∀ i j, i < c1table.groupVals.length → j < c1table.groupVals.length →
        ((ninteraction c1table.groupVals).getD i 0
            = (ninteraction c1table.groupVals).getD j 0
          ↔ c1table.groupVals.getD i default = c1table.groupVals.getD j default))
    ∧ (ninteraction c1table.groupVals).toFinset
        = Finset.range c1table.groupVals.dedup.length
    ∧ (ninteraction c1table.groupVals).toFinset.card
        = c1table.groupVals.toFinset.card) :=
  ⟨⟨by decide, by decide⟩,
    C1_add_group_recodes_explicit_group c1table (by decide) (by decide)⟩

/-! ### C2: sentinel group when nothing is discrete -/

/-- C2: for every well-formed table with no explicit `group` column and no
discrete candidate columns, `add_group` gives every row the sentinel
`NO_GROUP` value, so all rows form a single group.  (An empty table is
returned unchanged; its zero rows satisfy both statements vacuously.) -/
theorem C2_add_group_sentinel (data : Table)
    (hg : data.hasCol "group" = false)
    (hd : discrete_columns data (groupIgnore data) = []) :
    (∀ i, i < data.nrows → (add_group data).groupOfRow i = some NO_GROUP)
    ∧ (∀ i j, i < data.nrows → j < data.nrows →
        (add_group data).groupOfRow i = (add_group data).groupOfRow j) := by
  by_cases hz : data.nrows = 0
  · exact ⟨fun i hi => absurd hi (by omega), fun i j hi _ => absurd hi (by omega)⟩
  · have hres : add_group data =
        data.setCol "group" (List.replicate data.nrows NO_GROUP) false := by
      unfold add_group
      simp [hz, hg, hd]
    have hcol : (add_group data).getCol "group" =
        some ⟨"group", List.replicate data.nrows NO_GROUP, false⟩ := by
      rw [hres]
      exact getCol_setCol_self data "group" _ false
    have hrow : ∀ i, i < data.nrows →
        (add_group data).groupOfRow i = some NO_GROUP := by
      intro i hi
      unfold Table.groupOfRow
      rw [hcol]
      simp [hi]
    exact ⟨hrow, fun i j hi hj => by rw [hrow i hi, hrow j hj]⟩

/-- Witness table for C2: one continuous (non-discrete) column and no
`group` column. -/
def c2table : Table := ⟨2, [⟨"x", [.int 1, .int 2], false⟩]⟩

/-- C2 witness: the theorem applied to `c2table`, whose hypotheses hold by
computation. -/
theorem C2_witness :
    (c2table.hasCol "group" = false
      ∧ discrete_columns c2table (groupIgnore c2table) = [])
    ∧ ((∀ i, i < c2table.nrows →
          (add_group c2table).groupOfRow i = some NO_GROUP)
      ∧ (∀ i j, i < c2table.nrows → j < c2table.nrows →
          (add_group c2table).groupOfRow i = (add_group c2table).groupOfRow j)) :=
  ⟨⟨by decide, by decide⟩,
    C2_add_group_sentinel c2table (by decide) (by decide)⟩

/-! ### Association-list dictionaries (python `dict` semantics) -/

/-- `d.get(k)`: the value of the first entry named `k`. -/
def alookup {β : Type} (k : String) : List (String × β) → Option β
  | [] => none
  | p :: ps => if p.1 = k then some p.2 else alookup k ps

/-- `d.keys()`. -/
def akeys {β : Type} (l : List (String × β)) : List String := l.map Prod.fst

/-- `del d[k]`. -/
def aerase {β : Type} (k : String) (l : List (String × β)) : List (String × β) :=
  l.filter (fun p => decide (p.1 ≠ k))

/-- `d[k] = v`: replace in place when the key exists, else append. -/
def aset {β : Type} (k : String) (v : β) (l : List (String × β)) :
    List (String × β) :=
  if (alookup k l).isSome then
    l.map (fun p => if p.1 = k then (p.1, v) else p)
  else l ++ [(k, v)]

theorem alookup_aerase {β : Type} (k k' : String) (l : List (String × β)) :
    alookup k (aerase k' l) = if k = k' then none else alookup k l := by
  induction l with
  | nil => simp [aerase, alookup]
  | cons p ps ih =>
    unfold aerase at ih ⊢
    by_cases hp : p.1 = k'
    · rw [List.filter_cons_of_neg (by simp [hp])]
      rw [ih]
      by_cases hk : k = k'
      · simp [hk]
      · have hpk : ¬(p.1 = k) := by rw [hp]; exact fun h => hk h.symm
        simp [alookup, hpk, hk]
    · rw [List.filter_cons_of_pos (by simp [hp])]
      by_cases hpk : p.1 = k
      · have hk : ¬(k = k') := by rw [← hpk]; exact hp
        simp [alookup, hpk, hk]
      · simp only [alookup, hpk, if_false]
        exact ih

theorem alookup_append_of_some {β : Type} (k : String) {v : β}
    (l l' : List (String × β)) (h : alookup k l = some v) :
    alookup k (l ++ l') = some v := by
  induction l with
  | nil => simp [alookup] at h
  | cons p ps ih =>
    by_cases hp : p.1 = k
    · simp only [alookup, hp, if_true] at h ⊢
      exact h
    · simp only [alookup, hp, if_false] at h ⊢
      exact ih h

theorem alookup_append_of_none {β : Type} (k : String)
    (l l' : List (String × β)) (h : alookup k l = none) :
    alookup k (l ++ l') = alookup k l' := by
  induction l with
  | nil => rfl
  | cons p ps ih =>
    by_cases hp : p.1 = k
    · simp [alookup, hp] at h
    · simp only [alookup, hp, if_false] at h ⊢
      exact ih h

theorem alookup_isSome_iff_mem {β : Type} (k : String) (l : List (String × β)) :
    (alookup k l).isSome = true ↔ k ∈ akeys l := by
  induction l with
  | nil => simp [alookup, akeys]
  | cons p ps ih =>
    by_cases hp : p.1 = k
    · simp [alookup, akeys, hp]
    · simp only [alookup, hp, if_false, akeys, List.map_cons, List.mem_cons]
      rw [ih]
      unfold akeys
      constructor
      · exact Or.inr
      · rintro (h | h)
        · exact absurd h.symm hp
        · exact h

theorem alookup_map_set_self {β : Type} (k : String) (v : β)
    (l : List (String × β)) (hs : (alookup k l).isSome) :
    alookup k (l.map (fun p => if p.1 = k then (p.1, v) else p)) = some v := by
  induction l with
  | nil => simp [alookup] at hs
  | cons p ps ih =>
    by_cases hp : p.1 = k
    · simp [alookup, hp]
    · have hs' : (alookup k ps).isSome := by simpa [alookup, hp] using hs
      simp only [List.map_cons, if_neg hp]
      simp only [alookup, hp, if_false]
      exact ih hs'

theorem alookup_aset_self {β : Type} (k : String) (v : β) (l : List (String × β)) :
    alookup k (aset k v l) = some v := by
  unfold aset
  by_cases hs : (alookup k l).isSome
  · rw [if_pos hs]
    exact alookup_map_set_self k v l hs
  · rw [if_neg hs, alookup_append_of_none _ _ _ (Option.not_isSome_iff_eq_none.1 hs)]
    simp [alookup]

theorem alookup_map_set_ne {β : Type} (k k' : String) (v : β)
    (l : List (String × β)) (h : k ≠ k') :
    alookup k (l.map (fun p => if p.1 = k' then (p.1, v) else p)) = alookup k l := by
  induction l with
  | nil => rfl
  | cons p ps ih =>
    by_cases hp : p.1 = k'
    · have hpk : ¬(p.1 = k) := by rw [hp]; exact fun hh => h hh.symm
      simp only [List.map_cons, if_pos hp]
      simp only [alookup, hpk, if_false]
      exact ih
    · simp only [List.map_cons, if_neg hp]
      by_cases hpk : p.1 = k
      · simp [alookup, hpk]
      · simp only [alookup, hpk, if_false]
        exact ih

theorem alookup_aset_ne {β : Type} (k k' : String) (v : β)
    (l : List (String × β)) (h : k ≠ k') :
    alookup k (aset k' v l) = alookup k l := by
  unfold aset
  by_cases hs : (alookup k' l).isSome
  · rw [if_pos hs]
    exact alookup_map_set_ne k k' v l h
  · rw [if_neg hs]
    cases hkl : alookup k l with
    | some w => exact alookup_append_of_some k l _ hkl
    | none =>
      rw [alookup_append_of_none _ _ _ hkl]
      simp [alookup, h.symm]

/-! ### Aesthetic mappings and `layer._make_layer_mapping` -/

/-- A literal value supplied as a geometry parameter. -/
inductive ParamVal where
  | pstr (s : String)
  | pint (n : Int)
  | pq (v : ℚ)
  deriving DecidableEq

/-- A value bound to an aesthetic in a mapping: an expression, or a
`stage(start=...)` wrapper (produced when a literal `group` parameter is
re-expressed as a mapping). -/
inductive MapVal where
  | expr (e : String)
  | stageStart (v : ParamVal)
  deriving DecidableEq

/-- Modelled from the spec: `aes.inherit` (plotnine/mapping/aes.py, outside
the excerpt) — entries present in the child override same-named entries from
the parent; entries unique to the parent are added. -/
def inheritM (child parent : List (String × MapVal)) : List (String × MapVal) :=
  child ++ parent.filter (fun p => decide (p.1 ∉ akeys child))

/-- A string literal `group` parameter is double-quoted so that it evaluates
to itself. -/
def quoteGroupParam : ParamVal → ParamVal
  | .pstr s => .pstr ("\"" ++ s ++ "\"")
  | v => v

/-- `layer._make_layer_mapping(plot_mapping)` from layer.py with
`inherit_aes` true: inherit from the plot mapping, delete every aesthetic
that is also a literal geometry parameter, then re-add `group` as a
`stage(start=...)` mapping when it was given as a parameter. -/
def make_layer_mapping (childMapping plotMapping : List (String × MapVal))
    (aesParams : List (String × ParamVal)) (inheritAes : Bool) :
    List (String × MapVal) :=
  let m0 := if inheritAes then inheritM childMapping plotMapping else childMapping
  let m1 := (akeys aesParams).foldl (fun acc ae => aerase ae acc) m0
  match alookup "group" aesParams with
  | some g => aset "group" (MapVal.stageStart (quoteGroupParam g)) m1
  | none => m1

theorem alookup_filter_not_mem {β : Type} (k : String) (ks : List String)
    (l : List (String × β)) (hk : k ∉ ks) :
    alookup k (l.filter (fun p => decide (p.1 ∉ ks))) = alookup k l := by
  induction l with
  | nil => rfl
  | cons p ps ih =>
    by_cases hp : p.1 ∈ ks
    · rw [List.filter_cons_of_neg (by simp [hp])]
      have hpk : ¬(p.1 = k) := fun h => hk (h ▸ hp)
      rw [ih]
      simp [alookup, hpk]
    · rw [List.filter_cons_of_pos (by simp [hp])]
      by_cases hpk : p.1 = k
      · simp [alookup, hpk]
      · simp only [alookup, hpk, if_false]
        exact ih

theorem alookup_inheritM (k : String) (child parent : List (String × MapVal)) :
    alookup k (inheritM child parent)
      = if (alookup k child).isSome then alookup k child else alookup k parent := by
  unfold inheritM
  by_cases hs : (alookup k child).isSome
  · obtain ⟨v, hv⟩ := Option.isSome_iff_exists.1 hs
    rw [alookup_append_of_some k child _ hv, hv]
    simp [hs]
  · have hnone : alookup k child = none := Option.not_isSome_iff_eq_none.1 hs
    have hk : k ∉ akeys child := by
      rw [← alookup_isSome_iff_mem, hnone]
      simp
    rw [alookup_append_of_none _ _ _ hnone, alookup_filter_not_mem k _ parent hk]
    simp [hs]

theorem alookup_erase_fold (k : String) (ks : List String)
    (m : List (String × MapVal)) :
    alookup k (ks.foldl (fun acc ae => aerase ae acc) m)
      = if k ∈ ks then none else alookup k m := by
  induction ks generalizing m with
  | nil => simp
  | cons a as ih =>
    simp only [List.foldl_cons]
    rw [ih]
    by_cases hka : k = a
    · subst hka
      simp [alookup_aerase]
    · by_cases hkas : k ∈ as
      · simp [hkas, hka]
      · simp [hkas, hka, alookup_aerase]

/-- C3 counterexample: with empty child and parent mappings and the single
literal parameter `group="a"`, the resolved mapping does contain an entry
named `group` — an aesthetic name that is also a literal geometry
parameter — re-expressed as the self-evaluating mapping
`stage(start='"a"')`; the claim's "no entry whose aesthetic name is also a
literal geometry parameter" is therefore false at this input. -/
theorem C3_counterexample :
    alookup "group" (make_layer_mapping [] [] [("group", ParamVal.pstr "a")] true)
        = some (MapVal.stageStart (ParamVal.pstr "\"a\""))
    ∧ ("group" ∈ akeys [("group", ParamVal.pstr "a")])
    ∧ ¬(alookup "group"
          (make_layer_mapping [] [] [("group", ParamVal.pstr "a")] true) = none) := by
  refine ⟨by rfl, by simp [akeys], ?_⟩
  intro h
  rw [show alookup "group" (make_layer_mapping [] [] [("group", ParamVal.pstr "a")] true)
      = some (MapVal.stageStart (ParamVal.pstr "\"a\"")) from rfl] at h
  exact Option.noConfusion h

/-- C3 (amended): after setup with inheritance, the resolved mapping
contains every parent entry whose name is not in the child, every child
entry with the child's value, and no entry whose aesthetic name is also a
literal geometry parameter — except `group`: a literal `group` parameter is
re-expressed as a `stage(start=...)` mapping entry (double-quoting string
literals) instead of being removed. -/
theorem C3_make_layer_mapping_amended (child parent : List (String × MapVal))
    (params : List (String × ParamVal)) :
    (∀ g, alookup "group" params = some g →
        alookup "group" (make_layer_mapping child parent params true)
          = some (MapVal.stageStart (quoteGroupParam g)))
    ∧ (∀ ae, (alookup ae params).isSome → ae ≠ "group" →
        alookup ae (make_layer_mapping child parent params true) = none)
    ∧ (∀ ae, alookup ae params = none → (alookup ae child).isSome →
        alookup ae (make_layer_mapping child parent params true) = alookup ae child)
    ∧ (∀ ae, alookup ae params = none → alookup ae child = none →
        alookup ae (make_layer_mapping child parent params true)
          = alookup ae parent) := by
  refine ⟨?_, ?_, ?_, ?_⟩
  · intro g hg
    unfold make_layer_mapping
    rw [hg]
    exact alookup_aset_self _ _ _
  · intro ae hae hne
    unfold make_layer_mapping
    have hmem : ae ∈ akeys params := (alookup_isSome_iff_mem ae params).1 hae
    cases hg : alookup "group" params with
    | some g =>
      rw [alookup_aset_ne _ _ _ _ hne, alookup_erase_fold]
      simp [hmem]
    | none =>
      rw [alookup_erase_fold]
      simp [hmem]
  · intro ae hae hchild
    unfold make_layer_mapping
    have hmem : ae ∉ akeys params := by
      rw [← alookup_isSome_iff_mem, hae]
      simp
    cases hg : alookup "group" params with
    | some g =>
      have hne : ae ≠ "group" := by
        intro h
        rw [h, hg] at hae
        exact Option.noConfusion hae
      have hred : (if true = true then inheritM child parent else child)
          = inheritM child parent := by simp
      rw [alookup_aset_ne _ _ _ _ hne, alookup_erase_fold, hred, alookup_inheritM]
      simp [hmem, hchild]
    | none =>
      have hred : (if true = true then inheritM child parent else child)
          = inheritM child parent := by simp
      rw [alookup_erase_fold, hred, alookup_inheritM]
      simp [hmem, hchild]
  · intro ae hae hchild
    unfold make_layer_mapping
    have hmem : ae ∉ akeys params := by
      rw [← alookup_isSome_iff_mem, hae]
      simp
    have hred : (if true = true then inheritM child parent else child)
        = inheritM child parent := by simp
    cases hg : alookup "group" params with
    | some g =>
      have hne : ae ≠ "group" := by
        intro h
        rw [h, hg] at hae
        exact Option.noConfusion hae
      rw [alookup_aset_ne _ _ _ _ hne, alookup_erase_fold, hred, alookup_inheritM]
      simp [hmem, hchild]
    | none =>
      rw [alookup_erase_fold, hred, alookup_inheritM]
      simp [hmem, hchild]

/-- C3 witness: the amended theorem applied to concrete mappings — child
`{x ↦ expr "a", color ↦ expr "c"}`, parent `{x ↦ expr "b", y ↦ expr "d"}`,
literal parameters `{color, group}`. -/
theorem C3_witness :
    (alookup "group" [("color", ParamVal.pint 1), ("group", ParamVal.pstr "g")]
        = some (ParamVal.pstr "g")
      ∧ (alookup "color"
          [("color", ParamVal.pint 1), ("group", ParamVal.pstr "g")]).isSome
      ∧ alookup "y" [("color", ParamVal.pint 1), ("group", ParamVal.pstr "g")] = none
      ∧ alookup "x" [("color", ParamVal.pint 1), ("group", ParamVal.pstr "g")] = none)
    ∧ alookup "group"
        (make_layer_mapping
          [("x", MapVal.expr "a"), ("color", MapVal.expr "c")]
          [("x", MapVal.expr "b"), ("y", MapVal.expr "d")]
          [("color", ParamVal.pint 1), ("group", ParamVal.pstr "g")] true)
        = some (MapVal.stageStart (quoteGroupParam (ParamVal.pstr "g")))
    ∧ alookup "color"
        (make_layer_mapping
          [("x", MapVal.expr "a"), ("color", MapVal.expr "c")]
          [("x", MapVal.expr "b"), ("y", MapVal.expr "d")]
          [("color", ParamVal.pint 1), ("group", ParamVal.pstr "g")] true) = none
    ∧ alookup "x"
        (make_layer_mapping
          [("x", MapVal.expr "a"), ("color", MapVal.expr "c")]
          [("x", MapVal.expr "b"), ("y", MapVal.expr "d")]
          [("color", ParamVal.pint 1), ("group", ParamVal.pstr "g")] true)
        = alookup "x" [("x", MapVal.expr "a"), ("color", MapVal.expr "c")]
    ∧ alookup "y"
        (make_layer_mapping
          [("x", MapVal.expr "a"), ("color", MapVal.expr "c")]
          [("x", MapVal.expr "b"), ("y", MapVal.expr "d")]
          [("color", ParamVal.pint 1), ("group", ParamVal.pstr "g")] true)
        = alookup "y" [("x", MapVal.expr "b"), ("y", MapVal.expr "d")] :=
  ⟨⟨by rfl, by rfl, by rfl, by rfl⟩,
    (C3_make_layer_mapping_amended _ _ _).1 _ (by rfl),
    (C3_make_layer_mapping_amended _ _ _).2.1 "color" (by rfl) (by decide),
    (C3_make_layer_mapping_amended _ _ _).2.2.1 "x" (by rfl) (by rfl),
    (C3_make_layer_mapping_amended _ _ _).2.2.2 "y" (by rfl) (by rfl)⟩

/-! ### C4: `layer.__deepcopy__` shares the data table and copies the rest

Python object identity is embedded with an explicit store: an address is an
index into a list of objects, a layer's `__dict__` is an association list
from attribute names to addresses, and `deepcopy` of an attribute allocates
a fresh address holding a copy of the object's content. -/

/-- A python object on the heap: the working dataframe, a parameter list, or
some other (opaque) structural value. -/
inductive PyObj where
  | table (t : Table)
  | plist (xs : List Int)
  | obj (tag : String)
  deriving DecidableEq

/-- The heap: addresses are indices into the object list. -/
structure Store where
  objs : List PyObj
  deriving DecidableEq

def Store.get (s : Store) (a : Nat) : Option PyObj := s.objs[a]?

def Store.size (s : Store) : Nat := s.objs.length

/-- Allocate a fresh object, returning the new store and its address. -/
def Store.alloc (s : Store) (v : PyObj) : Store × Nat :=
  (⟨s.objs ++ [v]⟩, s.objs.length)

/-- Mutate the object at an address (e.g. appending to a parameter list). -/
def Store.setObj (s : Store) (a : Nat) (v : PyObj) : Store :=
  ⟨s.objs.set a v⟩

/-- `layer.__deepcopy__` from layer.py: iterate over `self.__dict__`; the
`data` attribute keeps its address (the dataframe object is shared), every
other attribute is deep-copied to a freshly allocated address. -/
def layer_deepcopy_fields (s : Store) :
    List (String × Nat) → Store × List (String × Nat)
  | [] => (s, [])
  | (k, a) :: rest =>
    if k = "data" then
      let r := layer_deepcopy_fields s rest
      (r.1, (k, a) :: r.2)
    else
      let p := s.alloc ((s.get a).getD (PyObj.obj "missing"))
      let r := layer_deepcopy_fields p.1 rest
      (r.1, (k, p.2) :: r.2)

theorem deepcopy_cons_data (s : Store) (a : Nat) (rest : List (String × Nat)) :
    layer_deepcopy_fields s (("data", a) :: rest)
      = ((layer_deepcopy_fields s rest).1,
         ("data", a) :: (layer_deepcopy_fields s rest).2) := rfl

theorem deepcopy_cons_other (s : Store) (k : String) (a : Nat)
    (rest : List (String × Nat)) (hk : k ≠ "data") :
    layer_deepcopy_fields s ((k, a) :: rest)
      = ((layer_deepcopy_fields
            (s.alloc ((s.get a).getD (PyObj.obj "missing"))).1 rest).1,
         (k, (s.alloc ((s.get a).getD (PyObj.obj "missing"))).2)
           :: (layer_deepcopy_fields
                (s.alloc ((s.get a).getD (PyObj.obj "missing"))).1 rest).2) := by
  rw [layer_deepcopy_fields, if_neg hk]

theorem alloc_size (s : Store) (v : PyObj) :
    (s.alloc v).1.size = s.size + 1 := by
  simp [Store.alloc, Store.size]

theorem alloc_get_lt (s : Store) (v : PyObj) (b : Nat) (hb : b < s.size) :
    (s.alloc v).1.get b = s.get b := by
  simp only [Store.alloc, Store.get]
  exact List.getElem?_append_left hb

theorem alloc_get_new (s : Store) (v : PyObj) :
    (s.alloc v).1.get (s.alloc v).2 = some v := by
  simp only [Store.alloc, Store.get]
  rw [List.getElem?_append_right (Nat.le_refl _)]
  simp

theorem deepcopy_size_mono (l : List (String × Nat)) :
    ∀ s : Store, s.size ≤ ((layer_deepcopy_fields s l).1).size := by
  induction l with
  | nil => intro s; exact Nat.le_refl _
  | cons kv rest ih =>
    intro s
    obtain ⟨k, a⟩ := kv
    by_cases hk : k = "data"
    · subst hk
      rw [deepcopy_cons_data]
      exact ih s
    · rw [deepcopy_cons_other s k a rest hk]
      refine Nat.le_trans ?_ (ih _)
      rw [alloc_size]
      omega

theorem deepcopy_preserves (l : List (String × Nat)) :
    ∀ (s : Store) (b : Nat), b < s.size →
      ((layer_deepcopy_fields s l).1).get b = s.get b := by
  induction l with
  | nil => intro s b _; rfl
  | cons kv rest ih =>
    intro s b hb
    obtain ⟨k, a⟩ := kv
    by_cases hk : k = "data"
    · subst hk
      rw [deepcopy_cons_data]
      exact ih s b hb
    · rw [deepcopy_cons_other s k a rest hk]
      have hb1 : b < (s.alloc ((s.get a).getD (PyObj.obj "missing"))).1.size := by
        rw [alloc_size]; omega
      rw [ih _ b hb1]
      exact alloc_get_lt s _ b hb

theorem deepcopy_alookup_data (l : List (String × Nat)) :
    ∀ s : Store,
      alookup "data" (layer_deepcopy_fields s l).2 = alookup "data" l := by
  induction l with
  | nil => intro s; rfl
  | cons kv rest ih =>
    intro s
    obtain ⟨k, a⟩ := kv
    by_cases hk : k = "data"
    · subst hk
      rw [deepcopy_cons_data]
      simp [alookup]
    · rw [deepcopy_cons_other s k a rest hk]
      simp only [alookup, hk, if_false]
      exact ih _

theorem deepcopy_akeys (l : List (String × Nat)) :
    ∀ s : Store, akeys (layer_deepcopy_fields s l).2 = akeys l := by
  induction l with
  | nil => intro s; rfl
  | cons kv rest ih =>
    intro s
    obtain ⟨k, a⟩ := kv
    by_cases hk : k = "data"
    · subst hk
      rw [deepcopy_cons_data]
      simp only [akeys, List.map_cons]
      rw [show (List.map Prod.fst (layer_deepcopy_fields s rest).2 : List String)
          = akeys (layer_deepcopy_fields s rest).2 from rfl, ih s]
      rfl
    · rw [deepcopy_cons_other s k a rest hk]
      simp only [akeys, List.map_cons]
      rw [show (List.map Prod.fst (layer_deepcopy_fields
            (s.alloc ((s.get a).getD (PyObj.obj "missing"))).1 rest).2 : List String)
          = akeys (layer_deepcopy_fields
              (s.alloc ((s.get a).getD (PyObj.obj "missing"))).1 rest).2 from rfl,
        ih _]
      rfl

theorem deepcopy_zip (l : List (String × Nat)) :
    ∀ s : Store, ∀ p ∈ l.zip (layer_deepcopy_fields s l).2,
      (p.1.1 = "data" → p.2.2 = p.1.2)
      ∧ (p.1.1 ≠ "data" → p.1.2 < s.size →
          s.size ≤ p.2.2
          ∧ ((layer_deepcopy_fields s l).1).get p.2.2 = s.get p.1.2) := by
  induction l with
  | nil => intro s p hp; simp at hp
  | cons kv rest ih =>
    intro s p hp
    obtain ⟨k, a⟩ := kv
    by_cases hk : k = "data"
    · subst hk
      rw [deepcopy_cons_data] at hp ⊢
      rw [List.zip_cons_cons] at hp
      rcases List.mem_cons.1 hp with hhead | htail
      · subst hhead
        dsimp only
        exact ⟨fun _ => rfl, fun h _ => absurd rfl h⟩
      · exact ih s p htail
    · rw [deepcopy_cons_other s k a rest hk] at hp ⊢
      rw [List.zip_cons_cons] at hp
      rcases List.mem_cons.1 hp with hhead | htail
      · subst hhead
        dsimp only
        refine ⟨fun h => absurd h hk, fun _ ha => ?_⟩
        have ho : s.get a = some s.objs[a] := List.getElem?_eq_getElem ha
        refine ⟨Nat.le_refl _, ?_⟩
        have hb2 : (s.alloc ((s.get a).getD (PyObj.obj "missing"))).2
            < (s.alloc ((s.get a).getD (PyObj.obj "missing"))).1.size := by
          rw [alloc_size, show (s.alloc ((s.get a).getD (PyObj.obj "missing"))).2
            = s.size from rfl]
          omega
        rw [deepcopy_preserves _ _ _ hb2, alloc_get_new, ho]
        rfl
      · dsimp only
        have hih := ih _ p htail
        refine ⟨hih.1, fun hne ha => ?_⟩
        have ha1 : p.1.2 < (s.alloc ((s.get a).getD (PyObj.obj "missing"))).1.size := by
          rw [alloc_size]; omega
        obtain ⟨hfresh, hcontent⟩ := hih.2 hne ha1
        refine ⟨by rw [alloc_size] at hfresh; omega, ?_⟩
        rw [hcontent]
        exact alloc_get_lt s _ _ ha

/-- C4: for every store and layer `__dict__` whose attribute addresses are
valid, the deep copy shares the identical working-table object with the
original — the `data` attribute keeps the very same address — while every
other attribute is an independent deep copy: its new address is fresh
(outside the original store) and initially holds the same content, the
original objects are untouched by the copy, and mutating any freshly
allocated object (e.g. a copied parameter list) leaves the content at every
original attribute address unchanged. -/
theorem C4_layer_deepcopy_shares_data (s : Store) (dict : List (String × Nat))
    (hv : ∀ kv ∈ dict, kv.2 < s.size) :
    (alookup "data" (layer_deepcopy_fields s dict).2 = alookup "data" dict)
    ∧ akeys (layer_deepcopy_fields s dict).2 = akeys dict
    ∧ (∀ p ∈ dict.zip (layer_deepcopy_fields s dict).2,
        (p.1.1 = "data" → p.2.2 = p.1.2)
        ∧ (p.1.1 ≠ "data" →
            s.size ≤ p.2.2
            ∧ ((layer_deepcopy_fields s dict).1).get p.2.2 = s.get p.1.2))
    ∧ (∀ b, b < s.size → ((layer_deepcopy_fields s dict).1).get b = s.get b)
    ∧ (∀ a v, s.size ≤ a → ∀ kv ∈ dict,
        (((layer_deepcopy_fields s dict).1).setObj a v).get kv.2 = s.get kv.2) := by
  refine ⟨deepcopy_alookup_data dict s, deepcopy_akeys dict s, ?_,
    deepcopy_preserves dict s, ?_⟩
  · intro p hp
    have h := deepcopy_zip dict s p hp
    have hmem : p.1 ∈ dict := (List.of_mem_zip hp).1
    exact ⟨h.1, fun hne => h.2 hne (hv p.1 hmem)⟩
  · intro a v hav kv hkv
    have hlt : kv.2 < s.size := hv kv hkv
    have hne : a ≠ kv.2 := by omega
    show ((layer_deepcopy_fields s dict).1.objs.set a v)[kv.2]? = s.get kv.2
    rw [List.getElem?_set_ne hne]
    exact deepcopy_preserves dict s kv.2 hlt

/-- Witness heap for C4: address 0 holds the working table, address 1 a
parameter list. -/
def c4store : Store := ⟨[PyObj.table ⟨1, []⟩, PyObj.plist [1, 2]]⟩

def c4dict : List (String × Nat) := [("data", 0), ("params", 1)]

/-- C4 witness: the theorem applied to the concrete heap `c4store` and
dictionary `c4dict`, whose validity hypothesis holds by computation. -/
theorem C4_witness :
    (∀ kv ∈ c4dict, kv.2 < c4store.size)
    ∧ ((alookup "data" (layer_deepcopy_fields c4store c4dict).2
          = alookup "data" c4dict)
      ∧ akeys (layer_deepcopy_fields c4store c4dict).2 = akeys c4dict
      ∧ (∀ p ∈ c4dict.zip (layer_deepcopy_fields c4store c4dict).2,
          (p.1.1 = "data" → p.2.2 = p.1.2)
          ∧ (p.1.1 ≠ "data" →
              c4store.size ≤ p.2.2
              ∧ ((layer_deepcopy_fields c4store c4dict).1).get p.2.2
                  = c4store.get p.1.2))
      ∧ (∀ b, b < c4store.size →
          ((layer_deepcopy_fields c4store c4dict).1).get b = c4store.get b)
      ∧ (∀ a v, c4store.size ≤ a → ∀ kv ∈ c4dict,
          (((layer_deepcopy_fields c4store c4dict).1).setObj a v).get kv.2
            = c4store.get kv.2)) :=
  ⟨by decide, C4_layer_deepcopy_shares_data c4store c4dict (by decide)⟩

/-! ### C5: draw z-order assignment -/

/-- A geometry/statistic parameter value. -/
inductive PVal where
  | pintV (n : Int)
  | pbV (b : Bool)
  | psV (s : String)
  | pqV (v : ℚ)
  | pnoneV
  deriving DecidableEq

/-- The slice of layer state that `layer.draw` reads: the geom's params, the
stat's params, the raster flag and the z-order. -/
structure LayerSt where
  geomParams : List (String × PVal)
  statParams : List (String × PVal)
  raster : Bool
  zorder : Int
  deriving DecidableEq

/-- `base.update(upd)` on a python dict. -/
def dict_update {β : Type} (base upd : List (String × β)) : List (String × β) :=
  upd.foldl (fun acc p => aset p.1 p.2 acc) base

/-- The parameter dict `layer.draw` hands to `geom.draw_layer`:
`params = copy(geom.params); params.update(stat.params);
params['zorder'] = self.zorder; params['raster'] = self.raster`. -/
def layer_draw_params (l : LayerSt) : List (String × PVal) :=
  aset "raster" (PVal.pbV l.raster)
    (aset "zorder" (PVal.pintV l.zorder)
      (dict_update l.geomParams l.statParams))

/-- `Layers.draw` from layer.py: `for i, l in enumerate(self, start=1):
l.zorder = i; l.draw(...)`.  The result records, per layer in order, the
mutated layer state and the parameter dict passed to its geom's draw
routine. -/
def Layers_draw (ls : List LayerSt) : List (LayerSt × List (String × PVal)) :=
  (List.enumFrom 1 ls).map (fun p =>
    let l := { p.2 with zorder := (p.1 : Int) }
    (l, layer_draw_params l))

/-- C5: for every list of layers and every position `i` (0-based), the
`i`-th layer drawn by the collection is assigned z-order `i + 1` (1-based
position) and the parameter dict handed to its geometry draw routine binds
`zorder` to that value. -/
theorem C5_draw_zorder (ls : List LayerSt) (i : Nat) (hi : i < ls.length) :
    ∃ pr, (Layers_draw ls)[i]? = some pr
      ∧ pr.1.zorder = (i : Int) + 1
      ∧ alookup "zorder" pr.2 = some (PVal.pintV ((i : Int) + 1)) := by
  have hlen : i < (List.enumFrom 1 ls).length := by
    rw [List.enumFrom_length]
    exact hi
  have henum : (List.enumFrom 1 ls)[i]? = some (1 + i, ls[i]) := by
    rw [List.getElem?_enumFrom, List.getElem?_eq_getElem hi]
    rfl
  refine ⟨({ ls[i] with zorder := ((1 + i : Nat) : Int) },
    layer_draw_params { ls[i] with zorder := ((1 + i : Nat) : Int) }), ?_, ?_, ?_⟩
  · unfold Layers_draw
    rw [List.getElem?_map, henum]
    rfl
  · show ((1 + i : Nat) : Int) = (i : Int) + 1
    push_cast
    ring
  · have hz : ((1 + i : Nat) : Int) = (i : Int) + 1 := by push_cast; ring
    unfold layer_draw_params
    rw [alookup_aset_ne _ _ _ _ (by decide), alookup_aset_self, hz]

/-- Witness layers for C5: two layers with distinct empty/nonempty params. -/
def c5layers : List LayerSt :=
  [⟨[("size", PVal.pqV 2)], [], false, 0⟩,
   ⟨[], [("width", PVal.pqV 1)], true, 0⟩]

/-- C5 witness: the theorem applied at position 1 of the concrete two-layer
collection; the drawn layer gets z-order 2. -/
theorem C5_witness :
    (1 < c5layers.length)
    ∧ ∃ pr, (Layers_draw c5layers)[1]? = some pr
        ∧ pr.1.zorder = (1 : Int) + 1
        ∧ alookup "zorder" pr.2 = some (PVal.pintV ((1 : Int) + 1)) :=
  ⟨by decide, C5_draw_zorder c5layers 1 (by decide)⟩

/-! ### C6, C7: `stat_count` -/

/-- The numeric data frame a statistic's per-group computation receives:
aesthetic columns of rationals (floats are embedded as exact rationals). -/
structure StatData where
  cols : List (String × List ℚ)
  deriving DecidableEq

/-- The errors the embedded code can raise. -/
inductive PErr where
  | plotnineError (msg : String)
  | typeErr (msg : String)
  | attributeErr (msg : String)
  | keyErr (key : String)
  deriving DecidableEq

/-- Insert a value into an ascending duplicate-free list, keeping it
ascending and duplicate-free. -/
def insertUniqAsc (v : ℚ) : List ℚ → List ℚ
  | [] => [v]
  | a :: rest =>
    if v < a then v :: a :: rest
    else if v = a then a :: rest
    else a :: insertUniqAsc v rest

/-- The distinct values of `xs` in ascending order — the index of the
pandas `pivot_table` used by `stat_count.compute_group`. -/
def sortedUniq (xs : List ℚ) : List ℚ :=
  xs.foldr insertUniqAsc []

/-- The weighted frequency of the value `v`: the sum of the weights of the
rows whose `x` equals `v` (the `pivot_table(..., aggfunc=np.sum)` cell). -/
def sumWeightsAt (x w : List ℚ) (v : ℚ) : ℚ :=
  ((x.zip w).filter (fun p => decide (p.1 = v))).foldl (fun acc p => acc + p.2) 0

/-- Modelled from the spec: `resolution(x, zero=False)` (plotnine/utils.py,
outside the excerpt) — the finest resolution of the data, i.e. the smallest
difference between consecutive sorted distinct values.  The convention for
fewer than two distinct values is 1 (the claims never evaluate it there). -/
def diffsQ : List ℚ → List ℚ
  | a :: b :: rest => (b - a) :: diffsQ (b :: rest)
  | _ => []

def resolution (xs : List ℚ) : ℚ :=
  match diffsQ (sortedUniq xs) with
  | [] => 1
  | d :: ds => ds.foldl min d

def statCountMsg : String := "stat_count() must not be used with a y aesthetic"

/-- `stat_count.setup_params` from stat_count.py: when the `width` parameter
is unset (`None`), derive it as `resolution(data['x'], False) * 0.9`.
(`width` is always present via `DEFAULT_PARAMS`, so the missing-key path is
unreachable and the params are returned unchanged there.) -/
def stat_count_setup_params (data : StatData) (params : List (String × PVal)) :
    List (String × PVal) :=
  match alookup "width" params with
  | some PVal.pnoneV =>
      aset "width"
        (PVal.pqV (resolution ((alookup "x" data.cols).getD []) * (9 / 10)))
        params
  | _ => params

/-- `stat_count.compute_group` from stat_count.py: read `x`, reject an
explicit `y` aesthetic (in the data or the params), default the weights to
ones, then produce one output row per distinct `x` in ascending order with
the weighted `count`, `prop = count / np.abs(count).sum()`, the `x` value
and the (constant) `width`. -/
def stat_count_compute_group (data : StatData)
    (params : List (String × PVal)) : Except PErr StatData :=
  match alookup "x" data.cols with
  | none => .error (.keyErr "x")
  | some x =>
    if (alookup "y" data.cols).isSome || (alookup "y" params).isSome then
      .error (.plotnineError statCountMsg)
    else
      let weight := (alookup "weight" data.cols).getD (List.replicate x.length 1)
      match alookup "width" params with
      | some (PVal.pqV width) =>
        let xs := sortedUniq x
        let count := xs.map (sumWeightsAt x weight)
        let total := count.foldl (fun acc c => acc + |c|) 0
        .ok ⟨[("count", count),
              ("prop", count.map (fun c => c / total)),
              ("x", xs),
              ("width", List.replicate xs.length width)]⟩
      | _ => .error (.keyErr "width")

/-- The C6 input: `x = [1, 1, 2, 3, 3, 3]`, no weight column. -/
def c6data : StatData := ⟨[("x", [1, 1, 2, 3, 3, 3])]⟩

/-- The C6 params: `stat_count`'s defaults, `width` unset. -/
def c6params : List (String × PVal) :=
  [("geom", PVal.psV "histogram"), ("position", PVal.psV "stack"),
   ("na_rm", PVal.pbV false), ("width", PVal.pnoneV)]

theorem c6_sortedUniq_eval : sortedUniq [1, 1, 2, 3, 3, 3] = [1, 2, 3] := by
  norm_num [sortedUniq, insertUniqAsc]

theorem c6_resolution_eval : resolution [1, 1, 2, 3, 3, 3] = 1 := by
  rw [resolution, c6_sortedUniq_eval]
  norm_num [diffsQ]

theorem c6_setup_eval :
    stat_count_setup_params c6data c6params
      = [("geom", PVal.psV "histogram"), ("position", PVal.psV "stack"),
         ("na_rm", PVal.pbV false), ("width", PVal.pqV (9 / 10))] := by
  rw [stat_count_setup_params]
  simp [c6data, c6params, alookup, aset]
  norm_num [c6_resolution_eval]

theorem c6_compute_eval :
    stat_count_compute_group c6data
        [("geom", PVal.psV "histogram"), ("position", PVal.psV "stack"),
         ("na_rm", PVal.pbV false), ("width", PVal.pqV (9 / 10))]
      = .ok ⟨[("count", [2, 1, 3]),
              ("prop", [2 / 6, 1 / 6, 3 / 6]),
              ("x", [1, 2, 3]),
              ("width", [9 / 10, 9 / 10, 9 / 10])]⟩ := by
  rw [stat_count_compute_group]
  simp [c6data, alookup, c6_sortedUniq_eval, sumWeightsAt, List.replicate]
  norm_num

/-- C6: on `x = [1,1,2,3,3,3]` with no weight column and `width` unset,
`setup_params` derives the default width `0.9 × resolution(x) = 9/10`, and
`compute_group` outputs exactly one row per distinct `x` in `{1,2,3}` with
counts `[2,1,3]`, proportions `[2/6, 1/6, 3/6]` summing to 1, and a constant
width column equal to the derived width. -/
theorem C6_stat_count_example :
    alookup "width" (stat_count_setup_params c6data c6params)
        = some (PVal.pqV (9 / 10))
    ∧ (9 / 10 : ℚ) = resolution [1, 1, 2, 3, 3, 3] * (9 / 10)
    ∧ stat_count_compute_group c6data (stat_count_setup_params c6data c6params)
        = .ok ⟨[("count", [2, 1, 3]),
                ("prop", [2 / 6, 1 / 6, 3 / 6]),
                ("x", [1, 2, 3]),
                ("width", [9 / 10, 9 / 10, 9 / 10])]⟩
    ∧ ((2 : ℚ) / 6 + 1 / 6 + 3 / 6 = 1) := by
  refine ⟨?_, ?_, ?_, by norm_num⟩
  · rw [c6_setup_eval]
    simp [alookup]
  · rw [c6_resolution_eval]
    norm_num
  · rw [c6_setup_eval, c6_compute_eval]

/-- C7: whenever `x` is present and a `y` aesthetic is explicitly supplied —
as a data column or as a parameter — `stat_count.compute_group` raises the
configuration error (it does not silently default). -/
theorem C7_stat_count_rejects_y (data : StatData) (params : List (String × PVal))
    (hx : (alookup "x" data.cols).isSome)
    (hy : (alookup "y" data.cols).isSome ∨ (alookup "y" params).isSome) :
    stat_count_compute_group data params
      = .error (.plotnineError statCountMsg) := by
  obtain ⟨x, hxv⟩ := Option.isSome_iff_exists.1 hx
  unfold stat_count_compute_group
  rw [hxv]
  have hcond : ((alookup "y" data.cols).isSome
      || (alookup "y" params).isSome) = true := by
    rcases hy with h | h <;> simp [h]
  dsimp only
  rw [if_pos hcond]

/-- C7 witness: the theorem applied to a concrete frame with both `x` and
`y` columns (and separately checked against a `y` supplied as a parameter
value). -/
theorem C7_witness :
    ((alookup "x" (StatData.mk [("x", [1]), ("y", [2])]).cols).isSome
      ∧ ((alookup "y" (StatData.mk [("x", [1]), ("y", [2])]).cols).isSome
          ∨ (alookup "y" ([] : List (String × PVal))).isSome))
    ∧ stat_count_compute_group (StatData.mk [("x", [1]), ("y", [2])]) []
        = .error (.plotnineError statCountMsg) :=
  ⟨⟨by decide, Or.inl (by decide)⟩,
    C7_stat_count_rejects_y _ _ (by decide) (Or.inl (by decide))⟩

/-! ### C8: resolving the layer's data in `layer._make_layer_data` -/

/-- The value `plot.data` resolves to before the layer's own data is
considered: a dataframe, or some other python object (with its
`copy.copy`-ability and its type name). -/
inductive Resolved where
  | rtable (t : Table)
  | robj (copyable : Bool) (typeName : String)

/-- The plot-level data: absent, a dataframe, a polars-style object with
`to_pandas`, a callable (whose call yields some resolved value), or any
other object (which line 177 of layer.py casts to a dataframe without
checking). -/
inductive PlotData where
  | ptable (t : Table)
  | pToPandas (t : Table)
  | pCallable (r : Resolved)
  | pObj (copyable : Bool) (typeName : String)

/-- The layer's own `_data`: a callable transform of the plot data, an
object with `to_pandas`, a dataframe, or a value of any other type. -/
inductive LayerData where
  | ldCallable (f : Resolved → Resolved)
  | ldToPandas (t : Table)
  | ldTable (t : Table)
  | ldObj (typeName : String)

/-- Lines 170-177 of layer.py: `None` becomes an empty dataframe, a callable
is called, `to_pandas` objects are converted, and anything else is cast to
a dataframe unchecked. -/
def resolve_plot_data : Option PlotData → Resolved
  | none => .rtable ⟨0, []⟩
  | some (.pCallable r) => r
  | some (.pToPandas t) => .rtable t
  | some (.ptable t) => .rtable t
  | some (.pObj c n) => .robj c n

def dataFnMsg : String := "Data function must return a Pandas dataframe"

/-- `layer._make_layer_data(plot_data)` from layer.py.

* No own data: `copy(data)`; if `copy` raises `AttributeError` (embedded as
  `copyable = false`), a `PlotnineError` naming the geometry and the data's
  class is raised; otherwise the resolved value — even a non-table — is
  accepted.
* Own data callable: the result must be a dataframe, else a `PlotnineError`
  with the fixed message `dataFnMsg`.
* Own data with `to_pandas`, or a dataframe: converted/copied.
* Own data of any other type: the code attempts
  `TypeError(f"Data has a bad type: {type(self.data)}")`, but `self.data`
  was never assigned on this path, so formatting the message raises
  `AttributeError` instead (the intended attribute is `self._data`). -/
def make_layer_data (geomName : String) (plotData : Option PlotData)
    (ownData : Option LayerData) : Except PErr Resolved :=
  let data := resolve_plot_data plotData
  match ownData with
  | none =>
    match data with
    | .rtable t => .ok (.rtable t)
    | .robj c n =>
      if c then .ok (.robj c n)
      else .error (.plotnineError
        (geomName ++ " layer expects a dataframe, but it got " ++ n
          ++ " instead."))
  | some (.ldCallable f) =>
    match f data with
    | .rtable t => .ok (.rtable t)
    | .robj _ _ => .error (.plotnineError dataFnMsg)
  | some (.ldToPandas t) => .ok (.rtable t)
  | some (.ldTable t) => .ok (.rtable t)
  | some (.ldObj _n) =>
    .error (.attributeErr "'layer' object has no attribute 'data'")

/-- C8 counterexample: a data callable returning a non-table raises a
`PlotnineError` whose message is the fixed string `dataFnMsg`, which
contains neither the geometry's name (`geom_point`) nor the offending data
type's name (`dict`) — the claim's "its message identifies the offending
geometry or data type by name" is false at this input. -/
theorem C8_counterexample :
    make_layer_data "geom_point" none
        (some (LayerData.ldCallable (fun _ => Resolved.robj true "dict")))
      = .error (.plotnineError dataFnMsg)
    ∧ ¬("geom_point".toList <:+: dataFnMsg.toList)
    ∧ ¬("dict".toList <:+: dataFnMsg.toList) :=
  ⟨rfl, by decide, by decide⟩

/-- C8 (amended): resolving the layer's data fails immediately at setup in
exactly these cases — a data callable whose result is not a table raises a
`PlotnineError` with the fixed message `dataFnMsg` (naming neither the
geometry nor the type); own data that is not a table, not convertible and
not callable fails with an `AttributeError` (the intended `TypeError`
message reads the unset `self.data`); and, when the layer has no own data,
inherited non-table data raises a `PlotnineError` naming the geometry and
the data's type only if copying it fails — a copyable non-table inherited
value is accepted silently.  Tables and convertible values succeed. -/
theorem C8_make_layer_data_amended (g : String) (pd : Option PlotData) :
    (∀ f c n, f (resolve_plot_data pd) = Resolved.robj c n →
        make_layer_data g pd (some (LayerData.ldCallable f))
          = .error (.plotnineError dataFnMsg))
    ∧ (∀ n, make_layer_data g pd (some (LayerData.ldObj n))
        = .error (.attributeErr "'layer' object has no attribute 'data'"))
    ∧ (∀ n, resolve_plot_data pd = Resolved.robj false n →
        make_layer_data g pd none
          = .error (.plotnineError
              (g ++ " layer expects a dataframe, but it got " ++ n
                ++ " instead.")))
    ∧ (∀ n, resolve_plot_data pd = Resolved.robj true n →
        make_layer_data g pd none = .ok (Resolved.robj true n))
    ∧ (∀ t, make_layer_data g pd (some (LayerData.ldTable t))
        = .ok (Resolved.rtable t))
    ∧ (∀ t, make_layer_data g pd (some (LayerData.ldToPandas t))
        = .ok (Resolved.rtable t)) := by
  refine ⟨?_, fun n => rfl, ?_, ?_, fun t => rfl, fun t => rfl⟩
  · intro f c n hf
    unfold make_layer_data
    dsimp only
    rw [hf]
  · intro n hn
    unfold make_layer_data
    dsimp only
    rw [hn]
    rfl
  · intro n hn
    unfold make_layer_data
    dsimp only
    rw [hn]
    rfl

/-- C8 witness: the amended theorem applied to the geometry name
`geom_point` and a plot-data object of type `dict` that cannot be copied;
the inherited-data path raises the error naming both the geometry and the
type, and the callable path raises the fixed message. -/
theorem C8_witness :
    ((fun (_ : Resolved) => Resolved.robj true "list")
          (resolve_plot_data (some (PlotData.pObj false "dict")))
        = Resolved.robj true "list"
      ∧ resolve_plot_data (some (PlotData.pObj false "dict"))
          = Resolved.robj false "dict")
    ∧ make_layer_data "geom_point" (some (PlotData.pObj false "dict"))
        (some (LayerData.ldCallable (fun _ => Resolved.robj true "list")))
        = .error (.plotnineError dataFnMsg)
    ∧ make_layer_data "geom_point" (some (PlotData.pObj false "dict")) none
        = .error (.plotnineError
            ("geom_point" ++ " layer expects a dataframe, but it got "
              ++ "dict" ++ " instead.")) :=
  ⟨⟨rfl, rfl⟩,
    (C8_make_layer_data_amended "geom_point"
      (some (PlotData.pObj false "dict"))).1 _ true "list" rfl,
    (C8_make_layer_data_amended "geom_point"
      (some (PlotData.pObj false "dict"))).2.2.1 "dict" rfl⟩

/-! ### C9: `compute_aesthetics` sorts the table by panel id, stably -/

/-- The sort key of a `PANEL` cell; panel ids are integers, so the other
constructors never occur in a `PANEL` column. -/
def panelKey : CellVal → Int
  | .int n => n
  | _ => 0

/-- The panel key of every row, in row order.  (`sort_values('PANEL')` is
only reached after `compute_aesthetics` assigned the `PANEL` column, so the
missing-column fallback is unreachable.) -/
def Table.panelKeys (t : Table) : List Int :=
  match t.getCol "PANEL" with
  | some c => c.values.map panelKey
  | none => List.replicate t.nrows 0

/-- Row index `a` precedes row index `b` in the stable sort by `keys`:
its key is smaller, or the keys are equal and `a` came first.  A stable
sort by a key is exactly the sort by this lexicographic (key, original
position) order, which is how pandas' `kind='mergesort'` (a stable sort)
is embedded. -/
def lexLt (keys : List Int) (a b : Nat) : Prop :=
  keys.getD a 0 < keys.getD b 0 ∨ (keys.getD a 0 = keys.getD b 0 ∧ a ≤ b)

instance (keys : List Int) : DecidableRel (lexLt keys) := fun a b => by
  unfold lexLt
  infer_instance

theorem lexLt_total (keys : List Int) :
    ∀ a b, lexLt keys a b ∨ lexLt keys b a := by
  intro a b
  unfold lexLt
  omega

theorem lexLt_trans (keys : List Int) :
    ∀ a b c, lexLt keys a b → lexLt keys b c → lexLt keys a c := by
  intro a b c
  unfold lexLt
  omega

/-- The permutation of row indices produced by the stable sort
`sort_values('PANEL', kind='mergesort')`. -/
def sortIdx (keys : List Int) : List Nat :=
  List.insertionSort (lexLt keys) (List.range keys.length)

theorem sortIdx_perm (keys : List Int) :
    List.Perm (sortIdx keys) (List.range keys.length) :=
  List.perm_insertionSort _ _

theorem sortIdx_sorted (keys : List Int) :
    List.Sorted (lexLt keys) (sortIdx keys) := by
  haveI : IsTotal Nat (lexLt keys) := ⟨lexLt_total keys⟩
  haveI : IsTrans Nat (lexLt keys) := ⟨lexLt_trans keys⟩
  exact List.sorted_insertionSort _ _

/-- Reindex every column of the table by the stable PANEL sort
permutation: `self.data = data.sort_values('PANEL', kind='mergesort')`. -/
def Table.sortValuesPanel (t : Table) : Table :=
  { nrows := t.nrows,
    cols := t.cols.map (fun c =>
      { c with values :=
          (sortIdx t.panelKeys).map (fun i => c.values.getD i (CellVal.int 0)) }) }

/-- Lines 262-266 of layer.py: assign the `PANEL` column — the constant 1
when the layer's own table is empty but aesthetics evaluated to vectors,
else the `PANEL` column of the layer's table. -/
def assign_panel (evaled selfData : Table) : Table :=
  if selfData.nrows = 0 ∧ 0 < evaled.nrows then
    evaled.setCol "PANEL" (List.replicate evaled.nrows (CellVal.int 1)) false
  else
    evaled.setCol "PANEL"
      (((selfData.getCol "PANEL").map Column.values).getD []) false

/-- Lines 258-269 of layer.py after the external expression evaluation:
assign `PANEL`, add the group column, and stably sort by panel id. -/
def compute_aesthetics (evaled selfData : Table) : Table :=
  (add_group (assign_panel evaled selfData)).sortValuesPanel

/-- C9: the working table after `compute_aesthetics` is the
evaluated-aesthetics table (with `PANEL` and `group` assigned) reindexed by
a permutation of its row indices that sorts the panel keys; the sort is
stable — whenever position `a` precedes position `b` in the result and the
two rows have equal panel ids, the original index at `a` is smaller than
the original index at `b`, so ties preserve the original row order. -/
theorem C9_compute_aesthetics_stable_sort (evaled selfData : Table) :
    compute_aesthetics evaled selfData
      = (add_group (assign_panel evaled selfData)).sortValuesPanel
    ∧ ∀ ks, ks = (add_group (assign_panel evaled selfData)).panelKeys →
        ((compute_aesthetics evaled selfData).cols
            = (add_group (assign_panel evaled selfData)).cols.map (fun c =>
                { c with values :=
                    (sortIdx ks).map (fun i => c.values.getD i (CellVal.int 0)) }))
        ∧ List.Perm (sortIdx ks) (List.range ks.length)
        ∧ (∀ a b, a < b → b < (sortIdx ks).length →
            (ks.getD ((sortIdx ks).getD a 0) 0
                ≤ ks.getD ((sortIdx ks).getD b 0) 0)
            ∧ (ks.getD ((sortIdx ks).getD a 0) 0
                  = ks.getD ((sortIdx ks).getD b 0) 0 →
                (sortIdx ks).getD a 0 < (sortIdx ks).getD b 0)) := by
  refine ⟨rfl, ?_⟩
  rintro ks rfl
  refine ⟨rfl, sortIdx_perm _, ?_⟩
  set keys := (add_group (assign_panel evaled selfData)).panelKeys with hkeys
  intro a b hab hb
  have ha : a < (sortIdx keys).length := Nat.lt_trans hab hb
  have hgda : (sortIdx keys).getD a 0 = (sortIdx keys)[a] := by
    rw [List.getD_eq_getElem?_getD, List.getElem?_eq_getElem ha]
    rfl
  have hgdb : (sortIdx keys).getD b 0 = (sortIdx keys)[b] := by
    rw [List.getD_eq_getElem?_getD, List.getElem?_eq_getElem hb]
    rfl
  have hpw := List.pairwise_iff_getElem.1 (sortIdx_sorted keys)
  have hlex := hpw a b ha hb hab
  have hnodup : (sortIdx keys).Nodup :=
    ((sortIdx_perm keys).symm).nodup (List.nodup_range _)
  have hne : (sortIdx keys)[a] ≠ (sortIdx keys)[b] := by
    intro h
    have := (List.Nodup.getElem_inj_iff hnodup).1 h
    omega
  rw [hgda, hgdb]
  unfold lexLt at hlex
  constructor
  · omega
  · intro heq
    rcases hlex with h | h
    · omega
    · omega

/-- Witness tables for C9: three rows, panels `[2, 1, 1]` — rows 1 and 2
tie on panel 1 and must keep their original order in the sorted result. -/
def c9evaled : Table := ⟨3, [⟨"x", [.int 10, .int 20, .int 30], false⟩]⟩

def c9selfData : Table :=
  ⟨3, [⟨"PANEL", [.int 2, .int 1, .int 1], false⟩]⟩

/-- C9 witness: the theorem applied to the concrete tables at result
positions 0 and 1, whose rows tie on panel id and keep original order. -/
theorem C9_witness :
    ((0 : Nat) < 1
      ∧ 1 < (sortIdx (add_group (assign_panel c9evaled c9selfData)).panelKeys).length)
    ∧ ((compute_aesthetics c9evaled c9selfData).cols
          = (add_group (assign_panel c9evaled c9selfData)).cols.map (fun c =>
              { c with values := (List.map (fun i => c.values.getD i (CellVal.int 0))
                  (sortIdx (add_group (assign_panel c9evaled c9selfData)).panelKeys)) }))
    ∧ List.Perm (sortIdx (add_group (assign_panel c9evaled c9selfData)).panelKeys)
        (List.range (add_group (assign_panel c9evaled c9selfData)).panelKeys.length)
    ∧ ((add_group (assign_panel c9evaled c9selfData)).panelKeys.getD
          ((sortIdx (add_group (assign_panel c9evaled c9selfData)).panelKeys).getD 0 0) 0
        ≤ (add_group (assign_panel c9evaled c9selfData)).panelKeys.getD
            ((sortIdx (add_group (assign_panel c9evaled c9selfData)).panelKeys).getD 1 0) 0)
    ∧ ((add_group (assign_panel c9evaled c9selfData)).panelKeys.getD
          ((sortIdx (add_group (assign_panel c9evaled c9selfData)).panelKeys).getD 0 0) 0
          = (add_group (assign_panel c9evaled c9selfData)).panelKeys.getD
              ((sortIdx (add_group (assign_panel c9evaled c9selfData)).panelKeys).getD 1 0) 0 →
        (sortIdx (add_group (assign_panel c9evaled c9selfData)).panelKeys).getD 0 0
          < (sortIdx (add_group (assign_panel c9evaled c9selfData)).panelKeys).getD 1 0) := by
  have h := C9_compute_aesthetics_stable_sort c9evaled c9selfData
  obtain ⟨-, h2⟩ := h
  obtain ⟨hcols, hperm, hsort⟩ := h2 _ rfl
  have hb : 1 < (sortIdx (add_group (assign_panel c9evaled c9selfData)).panelKeys).length := by
    decide
  obtain ⟨hle, hstable⟩ := hsort 0 1 (by decide) hb
  exact ⟨⟨by decide, hb⟩, hcols, hperm, hle, hstable⟩

/-! ### C10: `layer.setup_data` skips everything on an empty table -/

/-- The slice of a geometry `layer.setup_data` reads: its name, its required
aesthetics, the names of its literal aesthetic parameters, and its
data-normalization hook (an external collaborator, embedded as a function). -/
structure GeomSpec where
  name : String
  requiredAes : List String
  aesParamKeys : List String
  setupDataHook : Table → Table

/-- Modelled from the spec: `check_required_aesthetics` (plotnine/utils.py,
outside the excerpt) — validates that every aesthetic the geometry requires
is present either as a column or as a literal parameter, and fails with a
descriptive error naming the missing aesthetics and the geometry if not. -/
def check_required_aesthetics (required present : List String)
    (geomName : String) : Except PErr Unit :=
  let missing := required.filter (fun a => decide (a ∉ present))
  if missing.isEmpty then .ok ()
  else .error (.plotnineError
    (geomName ++ " requires the following missing aesthetics: "
      ++ String.intercalate ", " missing))

/-- `layer.setup_data` from layer.py: an empty working table is returned
unchanged without invoking the geometry hook or the required-aesthetics
validation; otherwise the hook runs and the validation checks the hook's
output columns together with the literal aesthetic parameters. -/
def layer_setup_data (g : GeomSpec) (data : Table) : Except PErr Table :=
  if data.nrows = 0 then .ok data
  else
    let d := g.setupDataHook data
    match check_required_aesthetics g.requiredAes
        (d.colNames ++ g.aesParamKeys) g.name with
    | .ok _ => .ok d
    | .error e => .error e

/-- C10: for every geometry — even one whose required aesthetics are absent
from the table and the parameters — a layer whose working table is empty
passes the setup-data stage with the table unchanged and no error: the
required-aesthetics validation is never performed on an empty table. -/
theorem C10_setup_data_empty_skips_validation (g : GeomSpec) (data : Table)
    (hz : data.nrows = 0) :
    layer_setup_data g data = .ok data := by
  unfold layer_setup_data
  rw [if_pos hz]

/-- C10 witness: the theorem applied to an empty table (which even has an
`x`-less column list) and a geometry requiring `x` with no parameters — the
stage still succeeds and the validation would have failed had it run. -/
theorem C10_witness :
    ((⟨0, []⟩ : Table).nrows = 0
      ∧ check_required_aesthetics ["x"]
          ((Table.colNames ⟨0, []⟩) ++ ([] : List String)) "geom_point"
          = .error (.plotnineError
              "geom_point requires the following missing aesthetics: x"))
    ∧ layer_setup_data ⟨"geom_point", ["x"], [], id⟩ ⟨0, []⟩
        = .ok (⟨0, []⟩ : Table) :=
  ⟨⟨rfl, rfl⟩,
    C10_setup_data_empty_skips_validation ⟨"geom_point", ["x"], [], id⟩ _ rfl⟩

end Plotnine
